import Mathlib

/-!
Verification of the prerequisite-aware progression and recommendation engine
of the learning_app repository.

The relational data model (tables `programmes`, `semaines`, `jours`,
`contenus`, `prerequis`, `progression` of `database_schema.py`) is embedded
as lists of records; each SQL query executed by `programme_learning_v2.py`
and `import_programme.py` is translated into a pure function over that
state.  Timestamps (`datetime.now()`) are passed explicitly as an integer
parameter `now`.
-/

set_option linter.unusedVariables false

/-- Row of the `programmes` table (`database_schema.py`, CREATE TABLE programmes).
The `date_creation` default column is not used by any verified operation and
is omitted. -/
structure Programme where
  id : String
  titre : String
  sujet : String
  duree_jours : Int
  niveau : Option String
  temps_quotidien : Option Int
  description : Option String
  actif : Bool
deriving DecidableEq, Repr

/-- Row of the `semaines` table. -/
structure Semaine where
  id : String
  programme_id : String
  numero : Int
  titre : String
  objectif : Option String
  temps_quotidien : Option String
  ordre : Int
deriving DecidableEq, Repr

/-- Row of the `jours` table. -/
structure Jour where
  id : String
  semaine_id : String
  nom : String
  type : String
  ordre : Int
deriving DecidableEq, Repr

/-- Row of the `contenus` table. -/
structure Contenu where
  id : String
  jour_id : String
  type : String
  titre : String
  description : Option String
  enonce : Option String
  indice : Option String
  difficulte : Option Int
  temps_estime : Option Int
  ordre : Int
deriving DecidableEq, Repr

/-- Row of the `prerequis` table (the autoincrement surrogate `id` carries no
information and is omitted; `obligatoire` is the INTEGER flag read as a
boolean). -/
structure Prerequis where
  contenu_id : String
  prerequis_contenu_id : String
  obligatoire : Bool
deriving DecidableEq, Repr

/-- Row of the `progression` table (autoincrement surrogate `id` omitted;
`UNIQUE(contenu_id)` makes `contenu_id` the logical key).  `statut` is the
TEXT column holding `non_commence`, `en_cours` or `termine`. -/
structure Progression where
  contenu_id : String
  statut : String
  date_debut : Option Int
  date_completion : Option Int
  notes : Option String
  temps_passe : Int
deriving DecidableEq, Repr

/-- The whole SQLite database state. -/
structure DB where
  programmes : List Programme
  semaines : List Semaine
  jours : List Jour
  contenus : List Contenu
  prerequis : List Prerequis
  progression : List Progression
deriving DecidableEq, Repr

/-- `ProgressionDAO.get_progression`: `SELECT * FROM progression WHERE
contenu_id = ?` followed by `fetchone`. -/
def get_progression (db : DB) (cid : String) : Option Progression :=
  (db.progression.filter (fun p => p.contenu_id == cid)).head?

/-- `ProgressionDAO.marquer_commence`: `INSERT OR REPLACE INTO progression
(contenu_id, statut, date_debut) VALUES (?, 'en_cours', ?)`.  REPLACE deletes
the row conflicting on `UNIQUE(contenu_id)` and inserts a fresh row, so the
unnamed columns take their schema defaults: `date_completion = NULL`,
`notes = NULL`, `temps_passe = 0`. -/
def marquer_commence (db : DB) (cid : String) (now : Int) : DB :=
  { db with progression :=
      db.progression.filter (fun p => !(p.contenu_id == cid)) ++
        [⟨cid, "en_cours", some now, none, none, 0⟩] }

/-- `ProgressionDAO.marquer_termine`: when a progression row exists it is
UPDATEd (statut, date_completion, temps_passe, notes — `date_debut` untouched),
otherwise a full row is INSERTed with `date_debut = date_completion = now`.
The Python defaults are `temps_passe = 0`, `notes = ""`. -/
def marquer_termine (db : DB) (cid : String) (temps_passe : Int)
    (notes : String) (now : Int) : DB :=
  match get_progression db cid with
  | some _ =>
      { db with progression :=
          db.progression.map (fun p =>
            if p.contenu_id == cid then
              { p with statut := "termine", date_completion := some now,
                       temps_passe := temps_passe, notes := some notes }
            else p) }
  | none =>
      { db with progression :=
          db.progression ++
            [⟨cid, "termine", some now, some now, some notes, temps_passe⟩] }

/-- `ContenuDAO.get_prerequis`: `SELECT c.*, p.obligatoire FROM prerequis p
JOIN contenus c ON c.id = p.prerequis_contenu_id WHERE p.contenu_id = ?`. -/
def get_prerequis (db : DB) (cid : String) : List (Contenu × Bool) :=
  db.prerequis.flatMap (fun p =>
    if p.contenu_id == cid then
      (db.contenus.filter (fun c => c.id == p.prerequis_contenu_id)).map
        (fun c => (c, p.obligatoire))
    else [])

/-- Helper used by `verifier_prerequis`: the prerequisite is validated when a
progression row exists and its `statut` equals `termine` (the Python test is
`not prog or prog['statut'] != 'termine'` for the opposite). -/
def estTermine (db : DB) (cid : String) : Bool :=
  match get_progression db cid with
  | none => false
  | some p => p.statut == "termine"

/-- `ProgrammeService.verifier_prerequis`: returns `(True, [])` when the
content has no (joined) prerequisite rows, otherwise collects one warning
line per unvalidated prerequisite and wraps them between a header line, an
empty line and an advisory line. -/
def verifier_prerequis (db : DB) (cid : String) : Bool × List String :=
  let prerequis := get_prerequis db cid
  if prerequis.isEmpty then (true, [])
  else
    let nonValides := (prerequis.filter (fun pr => !(estTermine db pr.1.id))).map
      (fun pr => "• " ++ pr.1.titre ++ " (" ++
        (if pr.2 then "obligatoire" else "recommandé") ++ ")")
    if nonValides.isEmpty then
      (true, ["✅ Tous les prérequis sont validés"])
    else
      (false, "⚠️  PRÉREQUIS NON VALIDÉS:" ::
        (nonValides ++ ["", "Il est recommandé de valider ces concepts d\x27abord."]))

/-- The JOIN chain of `suggerer_prochain_contenu`: the content belongs to the
programme through `jours` and `semaines`. -/
def dansProgramme (db : DB) (progId : String) (c : Contenu) : Bool :=
  db.jours.any (fun j => j.id == c.jour_id &&
    db.semaines.any (fun s => s.id == j.semaine_id && s.programme_id == progId))

/-- The WHERE condition `p.statut IS NULL OR p.statut = 'non_commence'` of the
candidate query (the LEFT JOIN yields NULL exactly when no progression row
exists). -/
def statutNonCommence (db : DB) (c : Contenu) : Bool :=
  match get_progression db c.id with
  | none => true
  | some p => p.statut == "non_commence"

/-- The `ORDER BY s.ordre, j.ordre, c.ordre` sort key of a content row. -/
def cleOrdre (db : DB) (c : Contenu) : Int × Int × Int :=
  match db.jours.find? (fun j => j.id == c.jour_id) with
  | none => (0, 0, c.ordre)
  | some j =>
      match db.semaines.find? (fun s => s.id == j.semaine_id) with
      | none => (0, j.ordre, c.ordre)
      | some s => (s.ordre, j.ordre, c.ordre)

/-- Lexicographic comparison of sort keys. -/
def cleLE (a b : Int × Int × Int) : Prop :=
  a.1 < b.1 ∨ (a.1 = b.1 ∧ (a.2.1 < b.2.1 ∨ (a.2.1 = b.2.1 ∧ a.2.2 ≤ b.2.2)))

instance cleLE.decidable : DecidableRel cleLE := fun a b => by
  unfold cleLE; exact inferInstance

/-- Curriculum order on contents, as produced by `ORDER BY s.ordre, j.ordre,
c.ordre`. -/
def ordreCursus (db : DB) (a b : Contenu) : Prop :=
  cleLE (cleOrdre db a) (cleOrdre db b)

instance ordreCursus.decidable (db : DB) : DecidableRel (ordreCursus db) :=
  fun a b => by unfold ordreCursus; exact inferInstance

/-- The rows matched by the candidate query before ORDER BY / LIMIT. -/
def contenusNonCommences (db : DB) (progId : String) : List Contenu :=
  db.contenus.filter (fun c => dansProgramme db progId c && statutNonCommence db c)

/-- The candidate window of `suggerer_prochain_contenu`: the matched rows in
curriculum order, capped by `LIMIT 10`. -/
def candidats (db : DB) (progId : String) : List Contenu :=
  (List.insertionSort (ordreCursus db) (contenusNonCommences db progId)).take 10

/-- The test applied to each candidate: `prerequis_ok or not
self.contenu_dao.get_prerequis(contenu['id'])`. -/
def prerequisOk (db : DB) (c : Contenu) : Bool :=
  (verifier_prerequis db c.id).1 || (get_prerequis db c.id).isEmpty

/-- The `for contenu in candidats: ... return contenu` loop body. -/
def premierValide (db : DB) : List Contenu → Option Contenu
  | [] => none
  | c :: rest => if prerequisOk db c then some c else premierValide db rest

/-- `ProgrammeService.suggerer_prochain_contenu`: first candidate passing the
prerequisite test, else the first candidate of the window, else `None`
(`return candidats[0] if candidats else None`). -/
def suggerer_prochain_contenu (db : DB) (progId : String) : Option Contenu :=
  match premierValide db (candidats db progId) with
  | some c => some c
  | none => (candidats db progId).head?

/-- All content rows of a programme (the JOIN of
`get_progression_programme`). -/
def contenusProgramme (db : DB) (progId : String) : List Contenu :=
  db.contenus.filter (fun c => dansProgramme db progId c)

/-- `COUNT(DISTINCT c.id)` of `ProgressionDAO.get_progression_programme`. -/
def total_contenus (db : DB) (progId : String) : Nat :=
  ((contenusProgramme db progId).map (fun c => c.id)).dedup.length

/-- `COUNT(DISTINCT CASE WHEN p.statut = 'termine' THEN c.id END)`. -/
def contenus_termines (db : DB) (progId : String) : Nat :=
  (((contenusProgramme db progId).filter (fun c => estTermine db c.id)).map
    (fun c => c.id)).dedup.length

/-- The completion percentage as computed by `generer_rapport` and
`afficher_programme_complet`: `(termines / total * 100) if total > 0 else 0`. -/
def pourcentage (db : DB) (progId : String) : ℚ :=
  if 0 < total_contenus db progId then
    (contenus_termines db progId : ℚ) / (total_contenus db progId : ℚ) * 100
  else 0

/-- Direct prerequisite neighbours of a content id in the `prerequis` edge
set. -/
def voisinsPrerequis (db : DB) (x : String) : List String :=
  (db.prerequis.filter (fun e => e.contenu_id == x)).map
    (fun e => e.prerequis_contenu_id)

/-- Ids reachable from the given start set in at most `n` further edge
steps. -/
def atteignables (db : DB) : Nat → List String → List String
  | 0, xs => xs
  | n + 1, xs =>
      atteignables db n ((xs.flatMap (voisinsPrerequis db) ++ xs).dedup)

/-- Acyclicity of the prerequisite graph: no content id reaches itself after
at least one edge (a cycle has length at most the number of edges). -/
def grapheAcyclique (db : DB) : Prop :=
  ∀ c ∈ db.contenus, c.id ∉ atteignables db db.prerequis.length
    (voisinsPrerequis db c.id)

/-- Satisfiability of the prerequisite graph of a programme: every edge points
to a content item that exists and belongs to the programme, so every
prerequisite can in principle be completed. -/
def prerequisSatisfiables (db : DB) (progId : String) : Prop :=
  ∀ e ∈ db.prerequis, ∃ c ∈ db.contenus,
    c.id = e.prerequis_contenu_id ∧ dansProgramme db progId c = true

instance grapheAcyclique.decidable (db : DB) :
    Decidable (grapheAcyclique db) := by
  unfold grapheAcyclique; exact inferInstance

instance prerequisSatisfiables.decidable (db : DB) (progId : String) :
    Decidable (prerequisSatisfiables db progId) := by
  unfold prerequisSatisfiables; exact inferInstance

/-- Referential integrity of the `prerequis` table, enforced at runtime by
`PRAGMA foreign_keys = ON`: both endpoints of every edge are existing content
ids. -/
def integritePrerequis (db : DB) : Prop :=
  ∀ e ∈ db.prerequis,
    (∃ c ∈ db.contenus, c.id = e.contenu_id) ∧
    (∃ c ∈ db.contenus, c.id = e.prerequis_contenu_id)

/-- The driver loop of claim C4: repeatedly ask for a suggestion and mark the
suggested item done (`marquer_termine` with the Python default arguments and
time 0), until no suggestion is returned or the fuel runs out.  Returns the
items suggested (in order) and the final database state. -/
def boucleSuggestion (progId : String) : Nat → DB → List Contenu × DB
  | 0, db => ([], db)
  | n + 1, db =>
      match suggerer_prochain_contenu db progId with
      | none => ([], db)
      | some c =>
          let res := boucleSuggestion progId n (marquer_termine db c.id 0 "" 0)
          (c :: res.1, res.2)

/-- An SQL value as stored in a row, for the export/import model. -/
inductive Val where
  | null
  | s (v : String)
  | i (v : Int)
deriving DecidableEq, Repr

/-- Python truthiness of a value read from JSON (`if prog.get("statut")`). -/
def valTruthy : Val → Bool
  | .null => false
  | .s v => !(v == "")
  | .i n => !(n == 0)

def valOptInt : Option Int → Val
  | some v => .i v
  | none => .null

def valOptStr : Option String → Val
  | some v => .s v
  | none => .null

/-- Column list of `programmes` (database_schema.py, CREATE TABLE). -/
def programmesColumns : List String :=
  ["id", "titre", "sujet", "duree_jours", "niveau", "temps_quotidien",
   "description", "date_creation", "actif"]

/-- Column list of `semaines`. -/
def semainesColumns : List String :=
  ["id", "programme_id", "numero", "titre", "objectif", "temps_quotidien",
   "ordre"]

/-- Column list of `jours`. -/
def joursColumns : List String :=
  ["id", "semaine_id", "nom", "type", "ordre"]

/-- Column list of `contenus`. -/
def contenusColumns : List String :=
  ["id", "jour_id", "type", "titre", "description", "enonce", "indice",
   "difficulte", "temps_estime", "ordre"]

/-- Column list of `progression`. -/
def progressionColumns : List String :=
  ["id", "contenu_id", "statut", "date_debut", "date_completion", "notes",
   "temps_passe"]

/-- A table row as a named list of values. -/
def programmeRow (p : Programme) : List (String × Val) :=
  [("id", .s p.id), ("titre", .s p.titre), ("sujet", .s p.sujet),
   ("duree_jours", .i p.duree_jours), ("niveau", valOptStr p.niveau),
   ("temps_quotidien", valOptInt p.temps_quotidien),
   ("description", valOptStr p.description), ("date_creation", .null),
   ("actif", .i (if p.actif then 1 else 0))]

def semaineRow (s : Semaine) : List (String × Val) :=
  [("id", .s s.id), ("programme_id", .s s.programme_id),
   ("numero", .i s.numero), ("titre", .s s.titre),
   ("objectif", valOptStr s.objectif),
   ("temps_quotidien", valOptStr s.temps_quotidien), ("ordre", .i s.ordre)]

def jourRow (j : Jour) : List (String × Val) :=
  [("id", .s j.id), ("semaine_id", .s j.semaine_id), ("nom", .s j.nom),
   ("type", .s j.type), ("ordre", .i j.ordre)]

def contenuRow (c : Contenu) : List (String × Val) :=
  [("id", .s c.id), ("jour_id", .s c.jour_id), ("type", .s c.type),
   ("titre", .s c.titre), ("description", valOptStr c.description),
   ("enonce", valOptStr c.enonce), ("indice", valOptStr c.indice),
   ("difficulte", valOptInt c.difficulte),
   ("temps_estime", valOptInt c.temps_estime), ("ordre", .i c.ordre)]

def progressionRow (p : Progression) : List (String × Val) :=
  [("contenu_id", .s p.contenu_id), ("statut", .s p.statut),
   ("date_debut", valOptInt p.date_debut),
   ("date_completion", valOptInt p.date_completion),
   ("notes", valOptStr p.notes), ("temps_passe", .i p.temps_passe)]

/-- `cursor.execute("SELECT cols FROM table ...")`: sqlite refuses the
statement when a selected column is not declared in the table schema,
regardless of the rows present; otherwise each row is projected onto the
selected columns. -/
def selectCols (schema : List String) (cols : List String)
    (rows : List (List (String × Val))) : Except String (List (List Val)) :=
  match cols.find? (fun c => !(schema.contains c)) with
  | some c => .error ("no such column: " ++ c)
  | none =>
      .ok (rows.map (fun r =>
        cols.map (fun c =>
          match r.find? (fun kv => kv.1 == c) with
          | some kv => kv.2
          | none => .null)))

/-- The per-content progression object written by
`exporter_progression_learning` (keys statut / date_debut / date_fin /
temps_passe / notes). -/
structure ProgressionExport where
  statut : Val
  date_debut : Val
  date_fin : Val
  temps_passe : Val
  notes : Val
deriving DecidableEq, Repr

/-- One entry of a day's `contenus` array in the export document. -/
structure ContenuExport where
  id : Val
  titre : Val
  type : Val
  description : Val
  enonce : Val
  indice : Val
  difficulte : Val
  temps_estime : Val
  ordre : Val
  progression : Option ProgressionExport
deriving DecidableEq, Repr

structure JourExport where
  id : Val
  numero : Val
  nom : Val
  type : Val
  ordre : Val
  contenus : List ContenuExport
deriving DecidableEq, Repr

structure SemaineExport where
  id : Val
  numero : Val
  titre : Val
  objectif : Val
  temps_quotidien : Val
  ordre : Val
  jours : List JourExport
deriving DecidableEq, Repr

/-- Outcome of `exporter_progression_learning`: either the JSON document, the
"Programme non trouvé" JSON, or the error JSON produced by the `except`
handler when a query raises. -/
inductive ExportOut where
  | sqlError (details : String)
  | progNotFound
  | doc (semaines : List SemaineExport)
deriving DecidableEq, Repr

def listGet (vs : List Val) (n : Nat) : Val := vs.getD n .null

/-- The export body in the `Except` monad; any failing query aborts the whole
function (the Python `try` wraps the entire body). -/
def exporterCorps (db : DB) (progId : String) :
    Except String ExportOut := do
  let progRows ← selectCols programmesColumns ["nom", "description", "duree_jours"]
    ((db.programmes.filter (fun p => p.id == progId)).map programmeRow)
  match progRows.head? with
  | none => return .progNotFound
  | some _ =>
    let semRows ← selectCols semainesColumns
      ["id", "numero", "titre", "objectif", "temps_quotidien", "ordre"]
      ((db.semaines.filter (fun s => s.programme_id == progId)).map semaineRow)
    let sems ← semRows.mapM (fun sr => do
      let semId := listGet sr 0
      let jourRows ← selectCols joursColumns
        ["id", "numero", "nom", "type", "ordre"]
        ((db.jours.filter (fun j => Val.s j.semaine_id == semId)).map jourRow)
      let jours ← jourRows.mapM (fun jr => do
        let jourId := listGet jr 0
        let contRows ← selectCols contenusColumns
          ["id", "titre", "type", "description", "enonce", "indice",
           "difficulte", "temps_estime", "ordre"]
          ((db.contenus.filter (fun c => Val.s c.jour_id == jourId)).map contenuRow)
        let conts ← contRows.mapM (fun cr => do
          let contId := listGet cr 0
          let progrRows ← selectCols progressionColumns
            ["statut", "date_debut", "date_fin", "temps_passe", "notes"]
            ((db.progression.filter (fun p => Val.s p.contenu_id == contId)).map
              progressionRow)
          let progr : Option ProgressionExport :=
            match progrRows.head? with
            | none => none
            | some pr => some ⟨listGet pr 0, listGet pr 1, listGet pr 2,
                listGet pr 3, listGet pr 4⟩
          return (⟨listGet cr 0, listGet cr 1, listGet cr 2, listGet cr 3,
            listGet cr 4, listGet cr 5, listGet cr 6, listGet cr 7,
            listGet cr 8, progr⟩ : ContenuExport))
        return (⟨listGet jr 0, listGet jr 1, listGet jr 2, listGet jr 3,
          listGet jr 4, conts⟩ : JourExport))
      return (⟨listGet sr 0, listGet sr 1, listGet sr 2, listGet sr 3,
        listGet sr 4, listGet sr 5, jours⟩ : SemaineExport))
    return .doc sems

/-- `exporter_progression_learning`: the `except` clause turns a raised SQL
error into the error JSON. -/
def exporter_progression_learning (db : DB) (progId : String) : ExportOut :=
  match exporterCorps db progId with
  | .error e => .sqlError e
  | .ok out => out

/-- Column list written by the UPDATE / INSERT statements of
`importer_progression`. -/
def importerColonnes : List String :=
  ["contenu_id", "statut", "date_debut", "date_fin", "temps_passe", "notes"]

def valAsString : Val → String
  | .s v => v
  | .i n => toString n
  | .null => ""

def valAsOptInt : Val → Option Int
  | .i n => some n
  | _ => none

def valAsOptStr : Val → Option String
  | .s v => some v
  | .i n => some (toString n)
  | .null => none

/-- One tuple of `importer_progression`: the UPDATE / INSERT references the
column `date_fin`, so under the database_schema.py schema the statement
raises and the inner `except` counts an error; were all columns present the
tuple would be upserted by `contenu_id`. -/
def importerTuple (db : DB) (cid : Val) (pr : ProgressionExport) :
    DB × Bool :=
  if importerColonnes.all (fun c => progressionColumns.contains c) then
    let cidS := valAsString cid
    match get_progression db cidS with
    | some _ =>
        ({ db with progression := db.progression.map (fun p =>
            if p.contenu_id == cidS then
              { p with statut := valAsString pr.statut,
                       date_debut := valAsOptInt pr.date_debut,
                       date_completion := valAsOptInt pr.date_fin,
                       temps_passe := (valAsOptInt pr.temps_passe).getD 0,
                       notes := valAsOptStr pr.notes }
            else p) }, true)
    | none =>
        ({ db with progression := db.progression ++
            [⟨cidS, valAsString pr.statut, valAsOptInt pr.date_debut,
              valAsOptInt pr.date_fin, valAsOptStr pr.notes,
              (valAsOptInt pr.temps_passe).getD 0⟩] }, true)
  else (db, false)

/-- `importer_progression` on parsed JSON data: walks semaines → jours →
contenus, upserting every tuple whose `progression.statut` is truthy; a
document without a `semaines` key (such as the error JSON) imports nothing.
Returns the new state with the counts `(nb_importes, nb_erreurs)`. -/
def importer_progression (db : DB) (data : ExportOut) : DB × Nat × Nat :=
  match data with
  | .doc sems =>
      (sems.flatMap (fun s => s.jours.flatMap (fun j => j.contenus))).foldl
        (fun acc c =>
          match c.progression with
          | some pr =>
              if valTruthy pr.statut then
                match importerTuple acc.1 c.id pr with
                | (db2, true) => (db2, acc.2.1 + 1, acc.2.2)
                | (db2, false) => (db2, acc.2.1, acc.2.2 + 1)
              else acc
          | none => acc) (db, 0, 0)
  | _ => (db, 0, 0)

/-- The round trip of claim C3: export the programme's progression, wipe the
progression table, import the exported document. -/
def rondeExportImport (db : DB) (progId : String) : DB :=
  let doc := exporter_progression_learning db progId
  let efface := { db with progression := [] }
  (importer_progression efface doc).1

/-! ### Concrete database states used as witnesses and counterexamples -/

def exProgramme : Programme :=
  ⟨"p1", "Python 30 jours", "python", 30, some "debutant", some 2, none, true⟩

def exSemaine : Semaine := ⟨"s1", "p1", 1, "Fondations", none, none, 1⟩

def exJour : Jour := ⟨"j1", "s1", "jour_1", "normal", 1⟩

def contenuA : Contenu :=
  ⟨"a", "j1", "theorie", "Variables", none, none, none, none, some 15, 1⟩

def contenuB : Contenu :=
  ⟨"b", "j1", "exercice", "Premier exercice", none, none, none, some 1,
   some 20, 2⟩

def contenuC : Contenu :=
  ⟨"c", "j1", "projet", "Mini projet", none, none, none, some 2, some 30, 3⟩

/-- Fresh programme with two contents and one mandatory edge b → a. -/
def dbFrais : DB :=
  ⟨[exProgramme], [exSemaine], [exJour], [contenuA, contenuB],
   [⟨"b", "a", true⟩], []⟩

/-- Same programme with content a completed. -/
def dbATermine : DB :=
  ⟨[exProgramme], [exSemaine], [exJour], [contenuA, contenuB],
   [⟨"b", "a", true⟩], [⟨"a", "termine", some 1, some 2, some "ok", 20⟩]⟩

/-- Programme whose single content is merely in progress. -/
def dbEnCours : DB :=
  ⟨[exProgramme], [exSemaine], [exJour], [contenuA], [],
   [⟨"a", "en_cours", some 1, none, none, 0⟩]⟩

/-- Content c has two unmet prerequisites, one mandatory (a) and one
recommended (b). -/
def dbDeuxPrerequis : DB :=
  ⟨[exProgramme], [exSemaine], [exJour], [contenuA, contenuB, contenuC],
   [⟨"c", "a", true⟩, ⟨"c", "b", false⟩], []⟩

/-- A progression row in state en_cours for content a. -/
def dbCommence : DB :=
  ⟨[exProgramme], [exSemaine], [exJour], [contenuA, contenuB], [],
   [⟨"a", "en_cours", some 10, none, none, 0⟩]⟩

/-- A progression row in state termine for content a. -/
def dbDejaTermine : DB :=
  ⟨[exProgramme], [exSemaine], [exJour], [contenuA, contenuB], [],
   [⟨"a", "termine", some 1, some 2, some "note", 45⟩]⟩

/-! ### Helper lemmas about the progression table -/

/-- Rows filtered away by `contenu_id` cannot reappear when filtering for that
`contenu_id`. -/
lemma filtre_sans_puis_avec (cid : String) (l : List Progression) :
    (l.filter (fun p => !(p.contenu_id == cid))).filter
      (fun p => p.contenu_id == cid) = [] := by
  induction l with
  | nil => rfl
  | cons a t ih =>
      cases hb : a.contenu_id == cid <;>
        simp [List.filter_cons, hb, ih]

/-- A map that preserves `contenu_id` commutes with filtering on
`contenu_id`. -/
lemma filtre_map_contenu {f : Progression → Progression}
    (hf : ∀ p, (f p).contenu_id = p.contenu_id) (q : String)
    (l : List Progression) :
    (l.map f).filter (fun p => p.contenu_id == q) =
      (l.filter (fun p => p.contenu_id == q)).map f := by
  induction l with
  | nil => rfl
  | cons a t ih =>
      simp only [List.map_cons, List.filter_cons, hf a]
      cases hb : a.contenu_id == q <;> simp [hb, ih]

lemma get_progression_commence_self (db : DB) (cid : String) (now : Int) :
    get_progression (marquer_commence db cid now) cid =
      some ⟨cid, "en_cours", some now, none, none, 0⟩ := by
  unfold get_progression marquer_commence
  simp [List.filter_append, filtre_sans_puis_avec]

lemma get_progression_termine_self (db : DB) (cid : String) (t : Int)
    (n : String) (now : Int) :
    get_progression (marquer_termine db cid t n now) cid =
      some (match get_progression db cid with
        | some r => { r with statut := "termine", date_completion := some now,
                             temps_passe := t, notes := some n }
        | none => ⟨cid, "termine", some now, some now, some n, t⟩) := by
  cases h : get_progression db cid with
  | none =>
      have hfil : db.progression.filter (fun p => p.contenu_id == cid) = [] := by
        have := h
        unfold get_progression at this
        exact List.head?_eq_none_iff.mp this
      unfold marquer_termine
      rw [h]
      unfold get_progression
      simp [List.filter_append, hfil]
  | some r =>
      have hf : ∀ p : Progression,
          ((fun p => if p.contenu_id == cid then
              { p with statut := "termine", date_completion := some now,
                       temps_passe := t, notes := some n }
            else p) p).contenu_id = p.contenu_id := by
        intro p; by_cases hp : p.contenu_id == cid <;> simp [hp]
      have hr : r.contenu_id = cid := by
        have hmem : r ∈ db.progression.filter (fun p => p.contenu_id == cid) := by
          unfold get_progression at h
          exact List.mem_of_mem_head? (by rw [h]; exact Option.mem_some_self r)
        simpa using (List.mem_filter.mp hmem).2
      unfold marquer_termine
      rw [h]
      unfold get_progression
      rw [filtre_map_contenu hf, List.head?_map]
      unfold get_progression at h
      rw [h]
      simp [hr]

lemma get_progression_termine_autre (db : DB) (cid cid2 : String) (t : Int)
    (n : String) (now : Int) (h : cid2 ≠ cid) :
    get_progression (marquer_termine db cid t n now) cid2 =
      get_progression db cid2 := by
  cases hg : get_progression db cid with
  | none =>
      unfold marquer_termine
      rw [hg]
      unfold get_progression
      rw [List.filter_append]
      have : ([(⟨cid, "termine", some now, some now, some n, t⟩ : Progression)].filter
          (fun p => p.contenu_id == cid2)) = [] := by
        simp [Ne.symm h]
      rw [this, List.append_nil]
  | some r =>
      have hf : ∀ p : Progression,
          ((fun p => if p.contenu_id == cid then
              { p with statut := "termine", date_completion := some now,
                       temps_passe := t, notes := some n }
            else p) p).contenu_id = p.contenu_id := by
        intro p; by_cases hp : p.contenu_id == cid <;> simp [hp]
      unfold marquer_termine
      rw [hg]
      unfold get_progression
      rw [filtre_map_contenu hf]
      congr 1
      have : ∀ p ∈ db.progression.filter (fun p => p.contenu_id == cid2),
          (fun p => if p.contenu_id == cid then
              { p with statut := "termine", date_completion := some now,
                       temps_passe := t, notes := some n }
            else p) p = p := by
        intro p hp
        have h2 : p.contenu_id = cid2 := by
          simpa using List.of_mem_filter hp
        have : (p.contenu_id == cid) = false := by
          simp [h2, h]
        simp [this]
      calc (db.progression.filter (fun p => p.contenu_id == cid2)).map _
          = (db.progression.filter (fun p => p.contenu_id == cid2)).map id :=
            List.map_congr_left this
        _ = _ := List.map_id _

lemma marquer_termine_contenus (db : DB) (cid : String) (t : Int) (n : String)
    (now : Int) : (marquer_termine db cid t n now).contenus = db.contenus := by
  unfold marquer_termine; cases get_progression db cid <;> rfl

lemma marquer_termine_jours (db : DB) (cid : String) (t : Int) (n : String)
    (now : Int) : (marquer_termine db cid t n now).jours = db.jours := by
  unfold marquer_termine; cases get_progression db cid <;> rfl

lemma marquer_termine_semaines (db : DB) (cid : String) (t : Int) (n : String)
    (now : Int) : (marquer_termine db cid t n now).semaines = db.semaines := by
  unfold marquer_termine; cases get_progression db cid <;> rfl

lemma marquer_termine_prerequis (db : DB) (cid : String) (t : Int) (n : String)
    (now : Int) : (marquer_termine db cid t n now).prerequis = db.prerequis := by
  unfold marquer_termine; cases get_progression db cid <;> rfl

lemma dansProgramme_termine (db : DB) (progId : String) (cid : String)
    (t : Int) (n : String) (now : Int) (c : Contenu) :
    dansProgramme (marquer_termine db cid t n now) progId c =
      dansProgramme db progId c := by
  unfold dansProgramme
  rw [marquer_termine_jours, marquer_termine_semaines]

lemma statutNonCommence_termine (db : DB) (cid : String) (t : Int) (n : String)
    (now : Int) (c : Contenu) :
    statutNonCommence (marquer_termine db cid t n now) c =
      if c.id = cid then false else statutNonCommence db c := by
  by_cases h : c.id = cid
  · subst h
    unfold statutNonCommence
    rw [get_progression_termine_self]
    cases get_progression db c.id <;> simp
  · unfold statutNonCommence
    rw [get_progression_termine_autre db cid c.id t n now h]
    simp [h]

/-! ### Helper lemmas about the recommendation loop -/

lemma premierValide_eq_find? (db : DB) (l : List Contenu) :
    premierValide db l = l.find? (prerequisOk db) := by
  induction l with
  | nil => rfl
  | cons c t ih =>
      unfold premierValide
      cases hp : prerequisOk db c <;> simp [List.find?_cons, hp, ih]

lemma find?_decoupe {α : Type} (p : α → Bool) :
    ∀ (l : List α) (a : α), l.find? p = some a →
      ∃ l₁ l₂, l = l₁ ++ a :: l₂ ∧ ∀ b ∈ l₁, p b = false := by
  intro l
  induction l with
  | nil => intro a h; simp at h
  | cons x t ih =>
      intro a h
      cases hp : p x with
      | true =>
          rw [List.find?_cons_of_pos _ hp] at h
          refine ⟨[], t, ?_, by simp⟩
          simp at h
          simp [h]
      | false =>
          rw [List.find?_cons_of_neg _ (by simp [hp])] at h
          obtain ⟨l₁, l₂, rfl, hl⟩ := ih a h
          exact ⟨x :: l₁, l₂, rfl, by
            intro b hb
            rcases List.mem_cons.mp hb with rfl | hb2
            · exact hp
            · exact hl b hb2⟩

lemma suggerer_mem (db : DB) (progId : String) (c : Contenu)
    (h : suggerer_prochain_contenu db progId = some c) :
    c ∈ candidats db progId := by
  unfold suggerer_prochain_contenu at h
  cases hp : premierValide db (candidats db progId) with
  | some c2 =>
      rw [hp] at h
      cases h
      rw [premierValide_eq_find?] at hp
      exact List.mem_of_find?_eq_some hp
  | none =>
      rw [hp] at h
      have h2 : (candidats db progId).head? = some c := by
        simpa using h
      exact List.mem_of_mem_head? (by rw [h2]; exact Option.mem_some_self c)

lemma mem_candidats_nonCommences (db : DB) (progId : String) (c : Contenu)
    (h : c ∈ candidats db progId) : c ∈ contenusNonCommences db progId := by
  unfold candidats at h
  have h2 := (List.take_sublist 10 _).mem h
  exact (List.perm_insertionSort (ordreCursus db) _).mem_iff.mp h2

lemma candidats_vide_iff (db : DB) (progId : String) :
    candidats db progId = [] ↔ contenusNonCommences db progId = [] := by
  unfold candidats
  constructor
  · intro h
    rcases List.take_eq_nil_iff.mp h with h2 | h2
    · simp at h2
    · have hp := List.perm_insertionSort (ordreCursus db)
        (contenusNonCommences db progId)
      rw [h2] at hp
      exact hp.symm.eq_nil
  · intro h
    rw [h]
    rfl

lemma suggerer_none_iff (db : DB) (progId : String) :
    suggerer_prochain_contenu db progId = none ↔
      contenusNonCommences db progId = [] := by
  constructor
  · intro h
    unfold suggerer_prochain_contenu at h
    cases hp : premierValide db (candidats db progId) with
    | some c2 => rw [hp] at h; cases h
    | none =>
        rw [hp] at h
        exact (candidats_vide_iff db progId).mp (List.head?_eq_none_iff.mp h)
  · intro h
    have hc : candidats db progId = [] := (candidats_vide_iff db progId).mpr h
    unfold suggerer_prochain_contenu
    rw [hc]
    rfl

lemma contenusNonCommences_termine (db : DB) (progId : String) (cid : String)
    (t : Int) (n : String) (now : Int) :
    contenusNonCommences (marquer_termine db cid t n now) progId =
      (contenusNonCommences db progId).filter (fun c => !(c.id == cid)) := by
  unfold contenusNonCommences
  rw [marquer_termine_contenus, List.filter_filter]
  apply List.filter_congr
  intro c hc
  rw [dansProgramme_termine, statutNonCommence_termine]
  by_cases h : c.id = cid <;> simp [h]

lemma filtre_id_unique :
    ∀ (l : List Contenu), ((l.map (fun c => c.id)).Nodup) →
      ∀ a ∈ l, l.filter (fun c => c.id == a.id) = [a] := by
  intro l
  induction l with
  | nil => intro _ a ha; cases ha
  | cons x t ih =>
      intro hn a ha
      rw [List.map_cons, List.nodup_cons] at hn
      obtain ⟨hx, ht⟩ := hn
      rcases List.mem_cons.mp ha with rfl | ha2
      · rw [List.filter_cons_of_pos (by simp)]
        have : t.filter (fun c => c.id == a.id) = [] := by
          rw [List.filter_eq_nil_iff]
          intro c hc
          simp only [beq_iff_eq]
          intro hcid
          exact hx (hcid ▸ List.mem_map_of_mem (fun c => c.id) hc)
        rw [this]
      · have hxa : (x.id == a.id) = false := by
          simp only [beq_eq_false_iff_ne]
          intro hcid
          exact hx (hcid ▸ List.mem_map_of_mem (fun c => c.id) ha2)
        rw [List.filter_cons_of_neg (by simp [hxa])]
        exact ih ht a ha2

lemma perm_retrait {l : List Contenu} (hn : (l.map (fun c => c.id)).Nodup)
    {a : Contenu} (ha : a ∈ l) :
    l.Perm (a :: l.filter (fun c => !(c.id == a.id))) := by
  have h1 := List.filter_append_perm (fun c => c.id == a.id) l
  rw [filtre_id_unique l hn a ha] at h1
  exact h1.symm

lemma nonCommences_ids_nodup (db : DB) (progId : String)
    (hn : (db.contenus.map (fun c => c.id)).Nodup) :
    ((contenusNonCommences db progId).map (fun c => c.id)).Nodup := by
  unfold contenusNonCommences
  exact List.Nodup.sublist (List.Sublist.map _ (List.filter_sublist _)) hn

lemma boucle_correcte (progId : String) :
    ∀ (fuel : Nat) (db : DB),
      (db.contenus.map (fun c => c.id)).Nodup →
      (contenusNonCommences db progId).length ≤ fuel →
      (boucleSuggestion progId fuel db).1.Perm (contenusNonCommences db progId) ∧
      suggerer_prochain_contenu (boucleSuggestion progId fuel db).2 progId =
        none := by
  intro fuel
  induction fuel with
  | zero =>
      intro db hn hlen
      have he : contenusNonCommences db progId = [] :=
        List.eq_nil_of_length_eq_zero (Nat.le_zero.mp hlen)
      refine ⟨?_, ?_⟩
      · simp [boucleSuggestion, he]
      · simpa [boucleSuggestion] using (suggerer_none_iff db progId).mpr he
  | succ m ih =>
      intro db hn hlen
      cases hs : suggerer_prochain_contenu db progId with
      | none =>
          have he := (suggerer_none_iff db progId).mp hs
          refine ⟨?_, ?_⟩
          · simp [boucleSuggestion, hs, he]
          · simp [boucleSuggestion, hs]
      | some c =>
          have hcmem : c ∈ contenusNonCommences db progId :=
            mem_candidats_nonCommences db progId c (suggerer_mem db progId c hs)
          have hnodup2 :
              ((marquer_termine db c.id 0 "" 0).contenus.map
                (fun c => c.id)).Nodup := by
            rw [marquer_termine_contenus]; exact hn
          have helig := contenusNonCommences_termine db progId c.id 0 "" 0
          have hen := nonCommences_ids_nodup db progId hn
          have hperm : (contenusNonCommences db progId).Perm
              (c :: contenusNonCommences (marquer_termine db c.id 0 "" 0)
                progId) := by
            rw [helig]
            exact perm_retrait hen hcmem
          have hlen2 :
              (contenusNonCommences (marquer_termine db c.id 0 "" 0)
                progId).length ≤ m := by
            have h1 := hperm.length_eq
            simp at h1
            omega
          obtain ⟨ihp, ihn⟩ := ih (marquer_termine db c.id 0 "" 0) hnodup2 hlen2
          refine ⟨?_, ?_⟩
          · show (boucleSuggestion progId (m + 1) db).1.Perm _
            simp only [boucleSuggestion, hs]
            exact (ihp.cons c).trans hperm.symm
          · simp only [boucleSuggestion, hs]
            exact ihn

lemma ordreCursus_trans (db : DB) : ∀ a b c : Contenu,
    ordreCursus db a b → ordreCursus db b c → ordreCursus db a c := by
  intro a b c
  unfold ordreCursus cleLE
  omega

lemma ordreCursus_totale (db : DB) : ∀ a b : Contenu,
    ordreCursus db a b ∨ ordreCursus db b a := by
  intro a b
  unfold ordreCursus cleLE
  omega

lemma candidats_triees (db : DB) (progId : String) :
    (candidats db progId).Pairwise (ordreCursus db) := by
  haveI : IsTotal Contenu (ordreCursus db) := ⟨ordreCursus_totale db⟩
  haveI : IsTrans Contenu (ordreCursus db) := ⟨ordreCursus_trans db⟩
  unfold candidats
  exact List.Pairwise.sublist (List.take_sublist _ _)
    (List.sorted_insertionSort (ordreCursus db) (contenusNonCommences db progId))

/-! ### Helper lemmas about the prerequisite check -/

lemma mem_get_prerequis (db : DB) (cid : String) (pr : Contenu × Bool) :
    pr ∈ get_prerequis db cid ↔
      ∃ e ∈ db.prerequis, e.contenu_id = cid ∧ pr.2 = e.obligatoire ∧
        pr.1 ∈ db.contenus ∧ pr.1.id = e.prerequis_contenu_id := by
  unfold get_prerequis
  rw [List.mem_flatMap]
  constructor
  · rintro ⟨e, he, hpr⟩
    by_cases hc : (e.contenu_id == cid) = true
    · rw [if_pos hc] at hpr
      obtain ⟨c, hc2, heq⟩ := List.mem_map.mp hpr
      obtain ⟨hcm, hcid⟩ := List.mem_filter.mp hc2
      refine ⟨e, he, by simpa using hc, ?_, ?_, ?_⟩
      · rw [← heq]
      · rw [← heq]; exact hcm
      · rw [← heq]; simpa using hcid
    · rw [if_neg hc] at hpr
      cases hpr
  · rintro ⟨e, he, hcid, hob, hmem, hid⟩
    refine ⟨e, he, ?_⟩
    rw [if_pos (by simpa using hcid)]
    apply List.mem_map.mpr
    refine ⟨pr.1, List.mem_filter.mpr ⟨hmem, by simpa using hid⟩, ?_⟩
    obtain ⟨x, y⟩ := pr
    simp only at hob
    rw [hob]

lemma verifier_resultat (db : DB) (cid : String) :
    verifier_prerequis db cid =
      if get_prerequis db cid = [] then (true, [])
      else if ((get_prerequis db cid).filter
          (fun pr => !(estTermine db pr.1.id))) = [] then
        (true, ["✅ Tous les prérequis sont validés"])
      else
        (false, "⚠️  PRÉREQUIS NON VALIDÉS:" ::
          ((((get_prerequis db cid).filter
              (fun pr => !(estTermine db pr.1.id))).map
            (fun pr => "• " ++ pr.1.titre ++ " (" ++
              (if pr.2 then "obligatoire" else "recommandé") ++ ")")) ++
           ["", "Il est recommandé de valider ces concepts d\x27abord."])) := by
  unfold verifier_prerequis
  by_cases h1 : get_prerequis db cid = []
  · simp [h1]
  · rw [if_neg h1]
    by_cases h2 : ((get_prerequis db cid).filter
        (fun pr => !(estTermine db pr.1.id))) = []
    · simp [List.isEmpty_iff, h1, h2]
    · simp [List.isEmpty_iff, h1, h2]

lemma get_prerequis_nonvide (db : DB) (cid : String)
    (hfk : ∀ e ∈ db.prerequis, ∃ c ∈ db.contenus,
      c.id = e.prerequis_contenu_id)
    (hne : ∃ e ∈ db.prerequis, e.contenu_id = cid) :
    get_prerequis db cid ≠ [] := by
  obtain ⟨e, he, hcid⟩ := hne
  obtain ⟨c, hcm, hcid2⟩ := hfk e he
  intro h0
  have hmem : (c, e.obligatoire) ∈ get_prerequis db cid :=
    (mem_get_prerequis db cid (c, e.obligatoire)).mpr
      ⟨e, he, hcid, rfl, hcm, hcid2⟩
  rw [h0] at hmem
  cases hmem

/-! ### Claim theorems -/

/-- C2: for every content item with at least one prerequisite edge, under the
foreign-key integrity that SQLite enforces on the `prerequis` table,
`verifier_prerequis` returns true if and only if every referenced
prerequisite content item — mandatory or recommended alike — has a
progression record with status `termine`. -/
theorem prerequis_satisfaits_ssi_termines (db : DB) (cid : String)
    (hfk : ∀ e ∈ db.prerequis, ∃ c ∈ db.contenus,
      c.id = e.prerequis_contenu_id)
    (hne : ∃ e ∈ db.prerequis, e.contenu_id = cid) :
    (verifier_prerequis db cid).1 = true ↔
      ∀ e ∈ db.prerequis, e.contenu_id = cid →
        estTermine db e.prerequis_contenu_id = true := by
  have h1 : get_prerequis db cid ≠ [] := get_prerequis_nonvide db cid hfk hne
  rw [verifier_resultat, if_neg h1]
  by_cases h2 : ((get_prerequis db cid).filter
      (fun pr => !(estTermine db pr.1.id))) = []
  · rw [if_pos h2]
    constructor
    · intro _ e he hcid
      obtain ⟨c, hcm, hcid2⟩ := hfk e he
      have hmem : (c, e.obligatoire) ∈ get_prerequis db cid :=
        (mem_get_prerequis db cid (c, e.obligatoire)).mpr
          ⟨e, he, hcid, rfl, hcm, hcid2⟩
      have h3 := List.filter_eq_nil_iff.mp h2 _ hmem
      rw [← hcid2]
      simpa using h3
    · intro _
      rfl
  · rw [if_neg h2]
    constructor
    · intro hfaux
      simp at hfaux
    · intro htous
      exfalso
      apply h2
      rw [List.filter_eq_nil_iff]
      intro pr hpr
      obtain ⟨e, he, hcid, hob, hmem, hid⟩ :=
        (mem_get_prerequis db cid pr).mp hpr
      have h4 := htous e he hcid
      rw [← hid] at h4
      simp [h4]

/-- Witness for C2 at a concrete state: content b has one mandatory edge to
a, and a is done. -/
theorem prerequis_satisfaits_ssi_termines_temoin :
    (∀ e ∈ dbATermine.prerequis, ∃ c ∈ dbATermine.contenus,
      c.id = e.prerequis_contenu_id) ∧
    (∃ e ∈ dbATermine.prerequis, e.contenu_id = "b") ∧
    ((verifier_prerequis dbATermine "b").1 = true ↔
      ∀ e ∈ dbATermine.prerequis, e.contenu_id = "b" →
        estTermine dbATermine e.prerequis_contenu_id = true) :=
  ⟨by decide, by decide,
   prerequis_satisfaits_ssi_termines dbATermine "b" (by decide) (by decide)⟩

/-- C9: a content item with no prerequisite edges — and, under foreign-key
integrity, a content id that does not resolve to an existing item — yields
`(true, [])` from `verifier_prerequis`; the embedded function is total, so no
exception can be raised. -/
theorem prerequis_vides_satisfaits (db : DB) (cid : String)
    (h : (∀ e ∈ db.prerequis, e.contenu_id ≠ cid) ∨
         (integritePrerequis db ∧ ∀ c ∈ db.contenus, c.id ≠ cid)) :
    verifier_prerequis db cid = (true, []) := by
  have hemp : get_prerequis db cid = [] := by
    unfold get_prerequis
    rw [List.flatMap_eq_nil_iff]
    rcases h with h | ⟨hint, hnc⟩
    · intro e he
      rw [if_neg (by simpa using h e he)]
    · intro e he
      have hno : e.contenu_id ≠ cid := by
        intro hcid
        obtain ⟨c, hcm, hc⟩ := (hint e he).1
        exact hnc c hcm (hc.trans hcid)
      rw [if_neg (by simpa using hno)]
  rw [verifier_resultat, if_pos hemp]

/-- Witness for C9: content a of the two-prerequisite state has no incoming
prerequisite edges. -/
theorem prerequis_vides_satisfaits_temoin :
    (∀ e ∈ dbDeuxPrerequis.prerequis, e.contenu_id ≠ "a") ∧
    verifier_prerequis dbDeuxPrerequis "a" = (true, []) :=
  ⟨by decide,
   prerequis_vides_satisfaits dbDeuxPrerequis "a" (Or.inl (by decide))⟩

/-- C7 counterexample: with two unmet prerequisites the message list has 5
lines (header, two naming lines, an empty line, an advisory line), not
exactly 2 as claimed. -/
theorem deux_prerequis_contre_exemple :
    (verifier_prerequis dbDeuxPrerequis "c").1 = false ∧
    (verifier_prerequis dbDeuxPrerequis "c").2.length ≠ 2 := by
  constructor
  · rfl
  · decide

/-- C7 (amended): with exactly two unmet prerequisites, one mandatory and one
recommended, `verifier_prerequis` returns false and a five-line message list
in which exactly the two middle lines name the prerequisites with their
mandatory/recommended label. -/
theorem deux_prerequis_messages (db : DB) (cid : String) (a b : Contenu)
    (h : get_prerequis db cid = [(a, true), (b, false)])
    (ha : estTermine db a.id = false) (hb : estTermine db b.id = false) :
    verifier_prerequis db cid =
      (false,
       ["⚠️  PRÉREQUIS NON VALIDÉS:",
        "• " ++ a.titre ++ " (obligatoire)",
        "• " ++ b.titre ++ " (recommandé)",
        "",
        "Il est recommandé de valider ces concepts d\x27abord."]) := by
  rw [verifier_resultat, h]
  have hf : ([(a, true), (b, false)]).filter
      (fun pr => !(estTermine db pr.1.id)) = [(a, true), (b, false)] := by
    simp [List.filter_cons, ha, hb]
  rw [if_neg (by simp), hf, if_neg (by simp)]
  simp
  constructor
  · simp only [String.append_assoc]
    refine congrArg _ (congrArg _ ?_)
    decide
  · simp only [String.append_assoc]
    refine congrArg _ (congrArg _ ?_)
    decide

/-- Witness for the amended C7 at the concrete two-prerequisite state. -/
theorem deux_prerequis_messages_temoin :
    (get_prerequis dbDeuxPrerequis "c" = [(contenuA, true), (contenuB, false)]) ∧
    (estTermine dbDeuxPrerequis contenuA.id = false) ∧
    (estTermine dbDeuxPrerequis contenuB.id = false) ∧
    verifier_prerequis dbDeuxPrerequis "c" =
      (false,
       ["⚠️  PRÉREQUIS NON VALIDÉS:",
        "• " ++ contenuA.titre ++ " (obligatoire)",
        "• " ++ contenuB.titre ++ " (recommandé)",
        "",
        "Il est recommandé de valider ces concepts d\x27abord."]) :=
  ⟨by decide, by decide, by decide,
   deux_prerequis_messages dbDeuxPrerequis "c" contenuA contenuB
     (by decide) (by decide) (by decide)⟩

/-- C5: on an item that already has a progression record, `marquer_termine`
keeps `date_debut` and sets statut/date_completion/temps_passe/notes; a
second call still keeps the original `date_debut` while overwriting
completion time, minutes and notes. -/
theorem marquer_termine_conserve_debut (db : DB) (cid : String)
    (r : Progression) (t1 t2 : Int) (n1 n2 : String) (now1 now2 : Int)
    (h : get_progression db cid = some r) :
    get_progression (marquer_termine db cid t1 n1 now1) cid =
      some { r with statut := "termine", date_completion := some now1,
                    temps_passe := t1, notes := some n1 } ∧
    get_progression (marquer_termine (marquer_termine db cid t1 n1 now1) cid
        t2 n2 now2) cid =
      some { r with statut := "termine", date_completion := some now2,
                    temps_passe := t2, notes := some n2 } := by
  have h1 := get_progression_termine_self db cid t1 n1 now1
  rw [h] at h1
  refine ⟨h1, ?_⟩
  have h2 := get_progression_termine_self (marquer_termine db cid t1 n1 now1)
    cid t2 n2 now2
  rw [h1] at h2
  exact h2

/-- Witness for C5 at a concrete in-progress record. -/
theorem marquer_termine_conserve_debut_temoin :
    (get_progression dbCommence "a" =
      some ⟨"a", "en_cours", some 10, none, none, 0⟩) ∧
    (get_progression (marquer_termine dbCommence "a" 25 "n1" 11) "a" =
      some ⟨"a", "termine", some 10, some 11, some "n1", 25⟩ ∧
     get_progression
        (marquer_termine (marquer_termine dbCommence "a" 25 "n1" 11) "a"
          40 "n2" 12) "a" =
      some ⟨"a", "termine", some 10, some 12, some "n2", 40⟩) :=
  ⟨by decide,
   marquer_termine_conserve_debut dbCommence "a"
     ⟨"a", "en_cours", some 10, none, none, 0⟩ 25 40 "n1" "n2" 11 12
     (by decide)⟩

/-- C10: `marquer_commence` on an item that already has a progression record
— even a completed one — replaces the whole row: statut becomes en_cours,
date_debut becomes now, and the stored completion date, notes and minutes are
reset to NULL/NULL/0. -/
theorem marquer_commence_ecrase_record (db : DB) (cid : String) (now : Int)
    (r : Progression) (h : get_progression db cid = some r) :
    get_progression (marquer_commence db cid now) cid =
      some ⟨cid, "en_cours", some now, none, none, 0⟩ :=
  get_progression_commence_self db cid now

/-- Witness for C10: restarting a completed item loses its completion
metadata. -/
theorem marquer_commence_ecrase_record_temoin :
    (get_progression dbDejaTermine "a" =
      some ⟨"a", "termine", some 1, some 2, some "note", 45⟩) ∧
    get_progression (marquer_commence dbDejaTermine "a" 9) "a" =
      some ⟨"a", "en_cours", some 9, none, none, 0⟩ :=
  ⟨by decide,
   marquer_commence_ecrase_record dbDejaTermine "a" 9
     ⟨"a", "termine", some 1, some 2, some "note", 45⟩ (by decide)⟩

/-- C6 counterexample: `marquer_termine` called with the non-positive value 0
on an item whose estimated time is 30 records 0 — not the estimated time, and
below the claimed minimum of 1. -/
theorem minutes_defaut_contre_exemple :
    contenuC.temps_estime = some 30 ∧
    (get_progression (marquer_termine dbDeuxPrerequis "c" 0 "" 5) "c").map
        (fun p => p.temps_passe) = some 0 ∧
    (0 : Int) ≠ 30 ∧ ¬(1 ≤ (0 : Int)) := by
  refine ⟨rfl, by decide, by decide, by decide⟩

/-- C6 (amended): `marquer_termine` records exactly the minutes value it is
given (its Python default being 0); the DAO applies no estimated-time default
and no minimum — those exist only in the interactive console prompt and the
web form widget. -/
theorem marquer_termine_enregistre_fourni (db : DB) (cid : String) (t : Int)
    (n : String) (now : Int) :
    (get_progression (marquer_termine db cid t n now) cid).map
        (fun p => p.temps_passe) = some t := by
  rw [get_progression_termine_self]
  cases get_progression db cid <;> rfl

/-- C8: the done count never exceeds the total count, and the completion
percentage is done/total×100 with an explicit 0 (no division) when the
programme has no content. -/
theorem progression_pourcentage_sure (db : DB) (progId : String) :
    contenus_termines db progId ≤ total_contenus db progId ∧
    pourcentage db progId =
      (if total_contenus db progId = 0 then 0
       else (contenus_termines db progId : ℚ) /
         (total_contenus db progId : ℚ) * 100) := by
  constructor
  · unfold contenus_termines total_contenus
    rw [← List.card_toFinset, ← List.card_toFinset]
    apply Finset.card_le_card
    intro x hx
    rw [List.mem_toFinset] at hx ⊢
    obtain ⟨c, hc, rfl⟩ := List.mem_map.mp hx
    exact List.mem_map_of_mem _ (List.mem_of_mem_filter hc)
  · unfold pourcentage
    by_cases h : total_contenus db progId = 0
    · simp [h]
    · rw [if_pos (Nat.pos_of_ne_zero h), if_neg h]

/-- C1 (amended): the candidate window holds at most the first 10
not-yet-started contents of the programme in curriculum order; any suggestion
comes from that window; the first window item passing the prerequisite test
(or having no prerequisite rows — `prerequisOk`) is returned when one exists,
otherwise the head of the window; and no suggestion is returned exactly when
the window is empty, i.e. when every content of the programme has a
progression row whose status is en_cours or termine (not necessarily a fully
completed programme). -/
theorem suggestion_fenetre (db : DB) (progId : String) :
    ((candidats db progId).length ≤ 10) ∧
    (candidats db progId).Pairwise (ordreCursus db) ∧
    (∀ c, suggerer_prochain_contenu db progId = some c →
      c ∈ candidats db progId) ∧
    ((∃ c ∈ candidats db progId, prerequisOk db c = true) →
      ∃ l1 c l2, candidats db progId = l1 ++ c :: l2 ∧
        suggerer_prochain_contenu db progId = some c ∧
        prerequisOk db c = true ∧ ∀ b ∈ l1, prerequisOk db b = false) ∧
    ((∀ c ∈ candidats db progId, prerequisOk db c = false) →
      suggerer_prochain_contenu db progId = (candidats db progId).head?) ∧
    (suggerer_prochain_contenu db progId = none ↔
      ∀ c ∈ db.contenus, dansProgramme db progId c = true →
        statutNonCommence db c = false) := by
  refine ⟨?_, candidats_triees db progId, suggerer_mem db progId, ?_, ?_, ?_⟩
  · unfold candidats
    exact List.length_take_le 10 _
  · rintro ⟨c0, hc0, hp0⟩
    cases hf : (candidats db progId).find? (prerequisOk db) with
    | none =>
        exact absurd hp0 (by simpa using List.find?_eq_none.mp hf c0 hc0)
    | some c =>
        obtain ⟨l1, l2, heq, hl1⟩ := find?_decoupe (prerequisOk db) _ c hf
        refine ⟨l1, c, l2, heq, ?_, List.find?_some hf, hl1⟩
        unfold suggerer_prochain_contenu
        rw [premierValide_eq_find?, hf]
  · intro htous
    have hf : (candidats db progId).find? (prerequisOk db) = none :=
      List.find?_eq_none.mpr (fun x hx => by simp [htous x hx])
    unfold suggerer_prochain_contenu
    rw [premierValide_eq_find?, hf]
  · rw [suggerer_none_iff]
    unfold contenusNonCommences
    rw [List.filter_eq_nil_iff]
    constructor
    · intro h c hc hd
      have h2 := h c hc
      simp [hd] at h2
      exact h2
    · intro h c hc
      simp only [Bool.and_eq_true, not_and]
      intro hd
      simp [h c hc hd]

/-- C1 counterexample: a programme whose only content is in progress gets no
suggestion although it is not fully completed, refuting the claim's "no
suggestion only when the programme is fully completed". -/
theorem suggestion_fenetre_contre_exemple :
    suggerer_prochain_contenu dbEnCours "p1" = none ∧
    ∃ c ∈ dbEnCours.contenus, dansProgramme dbEnCours "p1" c = true ∧
      estTermine dbEnCours c.id = false := by
  constructor
  · rfl
  · decide

/-- C4: starting from a fresh progression table, with distinct content ids,
an acyclic prerequisite graph and programme-internal (satisfiable)
prerequisites, repeatedly taking the suggestion and marking it done visits
exactly the programme's contents — each exactly once, none skipped — and then
yields no further suggestion. -/
theorem suggestion_repetee_visite_tout (db : DB) (progId : String)
    (hfrais : db.progression = [])
    (hids : (db.contenus.map (fun c => c.id)).Nodup)
    (hdag : grapheAcyclique db)
    (hsat : prerequisSatisfiables db progId) :
    ((boucleSuggestion progId db.contenus.length db).1).Perm
        (contenusProgramme db progId) ∧
    ((boucleSuggestion progId db.contenus.length db).1).Nodup ∧
    suggerer_prochain_contenu
        (boucleSuggestion progId db.contenus.length db).2 progId = none := by
  have hsnc : ∀ c : Contenu, statutNonCommence db c = true := by
    intro c
    unfold statutNonCommence get_progression
    rw [hfrais]
    rfl
  have helig : contenusNonCommences db progId = contenusProgramme db progId := by
    unfold contenusNonCommences contenusProgramme
    apply List.filter_congr
    intro c hc
    rw [hsnc c, Bool.and_true]
  have hlen : (contenusNonCommences db progId).length ≤ db.contenus.length := by
    unfold contenusNonCommences
    exact List.length_filter_le _ _
  obtain ⟨hperm, hnone⟩ := boucle_correcte progId db.contenus.length db hids hlen
  refine ⟨helig ▸ hperm, ?_, hnone⟩
  have hnd : (contenusNonCommences db progId).Nodup := by
    have hcont : db.contenus.Nodup := List.Nodup.of_map _ hids
    unfold contenusNonCommences
    exact hcont.filter _
  exact hperm.nodup_iff.mpr hnd

/-- Witness for C4 on the fresh two-content programme with one mandatory
edge. -/
theorem suggestion_repetee_visite_tout_temoin :
    (dbFrais.progression = []) ∧
    ((dbFrais.contenus.map (fun c => c.id)).Nodup) ∧
    grapheAcyclique dbFrais ∧
    prerequisSatisfiables dbFrais "p1" ∧
    (((boucleSuggestion "p1" dbFrais.contenus.length dbFrais).1).Perm
        (contenusProgramme dbFrais "p1") ∧
     ((boucleSuggestion "p1" dbFrais.contenus.length dbFrais).1).Nodup ∧
     suggerer_prochain_contenu
        (boucleSuggestion "p1" dbFrais.contenus.length dbFrais).2 "p1" =
          none) :=
  ⟨rfl, by decide, by decide, by decide,
   suggestion_repetee_visite_tout dbFrais "p1" rfl (by decide) (by decide)
     (by decide)⟩

/-- C3 (code bug): under the database_schema.py schema every learning export
aborts — its very first query selects the non-existent column `nom` of
`programmes` (later queries also reference `jours.numero` and
`progression.date_fin`) — so the caught error produces the error JSON;
importing that document after wiping the progression table restores nothing,
and the round trip loses every progression record instead of being the
identity. -/
theorem export_import_perd_la_progression :
    (∀ (db : DB) (progId : String),
      exporter_progression_learning db progId =
        ExportOut.sqlError "no such column: nom") ∧
    (rondeExportImport dbATermine "p1").progression = [] ∧
    dbATermine.progression ≠ [] := by
  refine ⟨fun db progId => rfl, rfl, by decide⟩
